import Mathlib

/-!
Verification development for the time-dependent FCI propagation module
(source file `ruojings_td_fci.py`).

The module propagates a complex many-body wavefunction, stored as a split
real/imaginary pair of real coefficient vectors, with an explicit
Runge-Kutta integrator, and measures observables (energy, occupancy, Sz,
current) by contracting reduced density matrices with operator tensors.

The combinatorial many-body engine (`pyscf.fci.direct_uhf`: Hamiltonian
action `contract_2e`/`absorb_h1e` behind `make_hop`, and the density-matrix
builders `make_rdm12s` / `trans_rdm12s`) is an external collaborator of the
repository (it lives in the pyscf library, not in this repository), so it is
modelled as an opaque parameter (`Engine`), exactly as the module's own code
treats it.  Everything written in `ruojings_td_fci.py` itself is embedded
definition by definition below.

Conventions of the embedding:
* Python floats are modelled as real numbers; the driver's time arguments
  `tf`, `dt` are modelled as rationals (every float is a rational) and are
  coerced to `ℝ` where they enter the state arithmetic.
* numpy arrays of shape `(n, ...)` are modelled as functions out of `Fin n`;
  the `norbs` shape arguments of the Python functions are absorbed into the
  type index `n`.
* `numpy.transpose(axes)` for the involutive axis permutations used by the
  source is modelled by the `t....` index-permutation helpers.
* Python exceptions are modelled with `Except PyErr`.  The two `assert`
  statements of `kernel` are modelled by the error names the design
  documentation gives them (`invalidModeError` for the mode membership
  assert, `missingParameterError` for the `i_dot`/`t_dot` asserts); a
  `TypeError` (tuple-unpacking of `None`, or an argument of the wrong
  dynamic type) is modelled by `typeError`.  `unsupportedOrderError` is
  declared because the design documentation names it, but no code path of
  the source produces it.
-/

set_option maxHeartbeats 1000000

noncomputable section

namespace TdFci

/-- Coefficient vector over the many-body (Slater determinant) basis;
`d` is the array length (the Hilbert-space dimension implied by
`norb`, `nelec`). -/
abbrev Vec (d : ℕ) : Type := Fin d → ℝ

/-- Real `n × n` matrix (site or orbital basis operator / tensor slice). -/
abbrev Mat (n : ℕ) : Type := Fin n → Fin n → ℝ

/-- Real rank-4 tensor of side `n` (two-body integrals). -/
abbrev T4 (n : ℕ) : Type := Fin n → Fin n → Fin n → Fin n → ℝ

/-- Complex `n × n` matrix (one-body reduced density matrix). -/
abbrev CMat (n : ℕ) : Type := Fin n → Fin n → ℂ

/-- Complex rank-4 tensor (two-body reduced density matrix). -/
abbrev CT4 (n : ℕ) : Type := Fin n → Fin n → Fin n → Fin n → ℂ

/-- Squared 2-norm of the complex vector `r + i·i`, i.e. the square of
`np.linalg.norm(r + 1j*i)`. -/
def normSq {d : ℕ} (r i : Vec d) : ℝ := ∑ k, (r k ^ 2 + i k ^ 2)

/-- `np.linalg.norm(r + 1j*i)`: the 2-norm of the complex vector `r + i·i`. -/
def cnorm {d : ℕ} (r i : Vec d) : ℝ := Real.sqrt (normSq r i)

/-- `class CIObject`: the split real/imaginary representation of the complex
CI vector, together with the orbital count and electron counts.
The Hilbert-space dimension `d` (the numpy array length, implicit in
Python) is carried as a type index. -/
structure CIObject (d : ℕ) where
  r : Vec d
  i : Vec d
  norb : ℕ
  nelec : ℕ × ℕ

/-- `compute_update(ci, eris, h, RK)` from the source.  The Hamiltonian
action `hop` (built by `make_hop(eris, ci.norb, ci.nelec)` from the external
many-body engine) is passed as a function argument.  For `RK = 1` it returns
the forward-Euler displacement `(hop ci.i, -hop ci.r)`; for `RK = 4` the
four-stage Runge-Kutta displacement in which each intermediate `(r, i)` pair
is divided by its complex 2-norm before the next Hamiltonian application;
for any other `RK` the Python function falls off the end and returns `None`
(modelled by `none`) - there is no error raised for unsupported orders. -/
def compute_update {d : ℕ} (hop : Vec d → Vec d) (ci : CIObject d) (h : ℝ)
    (RK : ℕ) : Option (Vec d × Vec d) :=
  let dr1 := hop ci.i
  let di1 := fun k => -(hop ci.r k)
  if RK = 1 then some (dr1, di1)
  else if RK = 4 then
    -- first intermediate: half step along (dr1, di1), then renormalize
    let r1 := fun k => ci.r k + dr1 k * h * 0.5
    let i1 := fun k => ci.i k + di1 k * h * 0.5
    let r1n := fun k => r1 k / cnorm r1 i1
    let i1n := fun k => i1 k / cnorm r1 i1
    let dr2 := hop i1n
    let di2 := fun k => -(hop r1n k)
    -- second intermediate: half step along (dr2, di2), then renormalize
    let r2 := fun k => ci.r k + dr2 k * h * 0.5
    let i2 := fun k => ci.i k + di2 k * h * 0.5
    let r2n := fun k => r2 k / cnorm r2 i2
    let i2n := fun k => i2 k / cnorm r2 i2
    let dr3 := hop i2n
    let di3 := fun k => -(hop r2n k)
    -- third intermediate: full step along (dr3, di3), then renormalize
    let r3 := fun k => ci.r k + dr3 k * h
    let i3 := fun k => ci.i k + di3 k * h
    let r3n := fun k => r3 k / cnorm r3 i3
    let i3n := fun k => i3 k / cnorm r3 i3
    let dr4 := hop i3n
    let di4 := fun k => -(hop r3n k)
    some (fun k => (dr1 k + 2 * dr2 k + 2 * dr3 k + dr4 k) / 6,
          fun k => (di1 k + 2 * di2 k + 2 * di3 k + di4 k) / 6)
  else none

/-- Renormalization of an `(r, i)` pair to unit complex 2-norm: both parts
are divided by `np.linalg.norm(r + 1j*i)`. -/
def normalizePair {d : ℕ} (r i : Vec d) : Vec d × Vec d :=
  (fun k => r k / cnorm r i, fun k => i k / cnorm r i)

/-- A half-step Runge-Kutta intermediate: advance `(r0, i0)` by `h/2` along
the stage displacement `(kr, ki)` and renormalize the resulting pair. -/
def rkHalfStage {d : ℕ} (r0 i0 kr ki : Vec d) (h : ℝ) : Vec d × Vec d :=
  normalizePair (fun k => r0 k + kr k * h * 0.5)
    (fun k => i0 k + ki k * h * 0.5)

/-- A full-step Runge-Kutta intermediate: advance `(r0, i0)` by `h` along
the stage displacement `(kr, ki)` and renormalize the resulting pair. -/
def rkFullStage {d : ℕ} (r0 i0 kr ki : Vec d) (h : ℝ) : Vec d × Vec d :=
  normalizePair (fun k => r0 k + kr k * h) (fun k => i0 k + ki k * h)

/-- The fourth-order update as the design documentation words it: stage 1 at
the current state; stages 2 and 3 at half-step intermediates built from the
previous stage; stage 4 at a full-step intermediate built from stage 3;
every intermediate pair renormalized before the next Hamiltonian action; and
the returned displacement the weighted average `(k1 + 2k2 + 2k3 + k4)/6`,
separately for the real and the imaginary part. -/
def rk4_update {d : ℕ} (hop : Vec d → Vec d) (r0 i0 : Vec d) (h : ℝ) :
    Vec d × Vec d :=
  let k1r := hop i0
  let k1i := fun k => -(hop r0 k)
  let s1 := rkHalfStage r0 i0 k1r k1i h
  let k2r := hop s1.2
  let k2i := fun k => -(hop s1.1 k)
  let s2 := rkHalfStage r0 i0 k2r k2i h
  let k3r := hop s2.2
  let k3i := fun k => -(hop s2.1 k)
  let s3 := rkFullStage r0 i0 k3r k3i h
  let k4r := hop s3.2
  let k4i := fun k => -(hop s3.1 k)
  (fun k => (k1r k + 2 * k2r k + 2 * k3r k + k4r k) / 6,
   fun k => (k1i k + 2 * k2i k + 2 * k3i k + k4i k) / 6)

/-- The post-update block shared verbatim by both kernels
(`kernel_plot` lines `r = ci.r + dt*dr ... ci.i = r_imag/norm` and the
identical block of `kernel_std`): apply the step displacement and
renormalize the state once. -/
def applyStep {d : ℕ} (ci : CIObject d) (dr di : Vec d) (dt : ℝ) :
    CIObject d :=
  let r := fun k => ci.r k + dt * dr k
  let i := fun k => ci.i k + dt * di k
  { ci with r := fun k => r k / cnorm r i, i := fun k => i k / cnorm r i }

/-- Error values for the exceptional paths of the module.  The first two
name the `assert` statements of `kernel` the way the design documentation
names them; `typeError` models a Python `TypeError` (tuple-unpacking `None`,
or passing a value of the wrong dynamic type); `unsupportedOrderError` is
listed in the design documentation's error table but is produced by no code
path of the source. -/
inductive PyErr where
  | invalidModeError
  | missingParameterError
  | unsupportedOrderError
  | typeError
deriving DecidableEq, Repr

/-- One kernel time step as both kernels execute it: `dr, di =
compute_update(ci, eris, dt, RK)` followed by the displacement-and-
renormalize block.  When `compute_update` returns `None`, the tuple
unpacking raises a `TypeError`. -/
def kernelStep {d : ℕ} (hop : Vec d → Vec d) (dt : ℝ) (RK : ℕ)
    (ci : CIObject d) : Except PyErr (CIObject d) :=
  match compute_update hop ci dt RK with
  | none => .error .typeError
  | some (dr, di) => .ok (applyStep ci dr di dt)

/-- Total form of the displacement for the supported orders, used to state
what the kernels compute (`Option.getD` of `compute_update`). -/
def updateRK {d : ℕ} (hop : Vec d → Vec d) (ci : CIObject d) (h : ℝ)
    (RK : ℕ) : Vec d × Vec d :=
  (compute_update hop ci h RK).getD (fun _ => 0, fun _ => 0)

/-- The total per-step state map of the kernels, for supported orders. -/
def stepFn {d : ℕ} (hop : Vec d → Vec d) (dt : ℝ) (RK : ℕ)
    (ci : CIObject d) : CIObject d :=
  applyStep ci (updateRK hop ci dt RK).1 (updateRK hop ci dt RK).2 dt

/-! ## Observable layer: `ERIs`, `compute_energy`, operator encodings -/

/-- `numpy` axis permutation `transpose(0,2,1,3)` (an involution):
`B[p,q,r,s] = A[p,r,q,s]`. -/
def t0213 {n : ℕ} {α : Type} (A : Fin n → Fin n → Fin n → Fin n → α) :
    Fin n → Fin n → Fin n → Fin n → α := fun p q r s => A p r q s

/-- `numpy` axis permutation `transpose(1,0,2,3)` (an involution):
`B[p,q,r,s] = A[q,p,r,s]`. -/
def t1023 {n : ℕ} {α : Type} (A : Fin n → Fin n → Fin n → Fin n → α) :
    Fin n → Fin n → Fin n → Fin n → α := fun p q r s => A q p r s

/-- `numpy` axis permutation `transpose(1,0,3,2)` (an involution):
`B[p,q,r,s] = A[q,p,s,r]`. -/
def t1032 {n : ℕ} {α : Type} (A : Fin n → Fin n → Fin n → Fin n → α) :
    Fin n → Fin n → Fin n → Fin n → α := fun p q r s => A q p s r

/-- `numpy` axis permutation `transpose(3,2,1,0)` (an involution):
`B[p,q,r,s] = A[s,r,q,p]`. -/
def t3210 {n : ℕ} {α : Type} (A : Fin n → Fin n → Fin n → Fin n → α) :
    Fin n → Fin n → Fin n → Fin n → α := fun p q r s => A s r q p

/-- Matrix transpose `M.T`. -/
def mT {n : ℕ} {α : Type} (M : Fin n → Fin n → α) : Fin n → Fin n → α :=
  fun p q => M q p

/-- Entrywise cast of a real matrix to a complex one
(`np.array(..., dtype=complex)`). -/
def castM {n : ℕ} (M : Mat n) : CMat n := fun p q => (M p q : ℂ)

/-- Entrywise cast of a real rank-4 tensor to a complex one. -/
def castT {n : ℕ} (T : T4 n) : CT4 n := fun p q r s => (T p q r s : ℂ)

/-- `class ERIs`: the stored effective-Hamiltonian bundle - molecular
orbital coefficients, spin-resolved one-body matrices and the three
spin-channel two-body tensors, all in the orbital basis. -/
structure ERIsData (n : ℕ) where
  mo_coeff : Mat n × Mat n
  h1e : Mat n × Mat n
  g2e : T4 n × T4 n × T4 n

/-- `ERIs.__init__(h1e, g2e, mo_coeff)`: transform the site-basis one-body
matrix and (chemist-notation) two-body tensor into the orbital basis of each
spin channel with the coefficient matrices `moa`, `mob`, exactly by the four
`einsum` contractions of the source. -/
def ERIs.make {n : ℕ} (h1e : Mat n) (g2e : T4 n) (mo_coeff : Mat n × Mat n) :
    ERIsData n :=
  let moa := mo_coeff.1
  let mob := mo_coeff.2
  let h1e_a := fun p q => ∑ u, ∑ v, h1e u v * moa u p * moa v q
  let h1e_b := fun p q => ∑ u, ∑ v, h1e u v * mob u p * mob v q
  let g2e_aa1 := fun p r x y => ∑ u, ∑ v, g2e u v x y * moa u p * moa v r
  let g2e_aa := fun p r q s => ∑ x, ∑ y, g2e_aa1 p r x y * moa x q * moa y s
  let g2e_ab1 := fun p r x y => ∑ u, ∑ v, g2e u v x y * moa u p * moa v r
  let g2e_ab := fun p r q s => ∑ x, ∑ y, g2e_ab1 p r x y * mob x q * mob y s
  let g2e_bb1 := fun p r x y => ∑ u, ∑ v, g2e u v x y * mob u p * mob v r
  let g2e_bb := fun p r q s => ∑ x, ∑ y, g2e_bb1 p r x y * mob x q * mob y s
  ⟨mo_coeff, (h1e_a, h1e_b), (g2e_aa, g2e_ab, g2e_bb)⟩

/-- The alpha-alpha two-body tensor as `compute_energy` uses it: cast to
complex, moved to physicists notation by `transpose(0,2,1,3)`, then
antisymmetrized by subtracting the particle-exchange transpose
`transpose(1,0,2,3)`. -/
def energyG2aa {n : ℕ} (eris : ERIsData n) : CT4 n :=
  let g := t0213 (castT eris.g2e.1)
  fun p q r s => g p q r s - t1023 g p q r s

/-- The mixed alpha-beta two-body tensor as `compute_energy` uses it: cast
to complex and moved to physicists notation by `transpose(0,2,1,3)`; no
antisymmetrization is applied to this channel. -/
def energyG2ab {n : ℕ} (eris : ERIsData n) : CT4 n :=
  t0213 (castT eris.g2e.2.1)

/-- The beta-beta two-body tensor as `compute_energy` uses it (same
construction as the alpha-alpha channel). -/
def energyG2bb {n : ℕ} (eris : ERIsData n) : CT4 n :=
  let g := t0213 (castT eris.g2e.2.2)
  fun p q r s => g p q r s - t1023 g p q r s

/-- `compute_energy(d1, d2, eris)`: contract the (complex) one- and
two-body density matrices with the operator tensors stored in `eris`,
summing the five spin-channel contributions of the source's `einsum`
calls into one complex scalar. -/
def compute_energy {n : ℕ} (d1 : CMat n × CMat n)
    (d2 : CT4 n × CT4 n × CT4 n) (eris : ERIsData n) : ℂ :=
  let h1e_a := castM eris.h1e.1
  let h1e_b := castM eris.h1e.2
  let d2aa := t0213 d2.1
  let d2ab := t0213 d2.2.1
  let d2bb := t0213 d2.2.2
  (∑ p, ∑ q, h1e_a p q * d1.1 q p) +
  (∑ p, ∑ q, h1e_b p q * d1.2 q p) +
  (1 / 4 : ℂ) * (∑ p, ∑ q, ∑ r, ∑ s, energyG2aa eris p q r s * d2aa r s p q) +
  (1 / 4 : ℂ) * (∑ p, ∑ q, ∑ r, ∑ s, energyG2bb eris p q r s * d2bb r s p q) +
  (∑ p, ∑ q, ∑ r, ∑ s, energyG2ab eris p q r s * d2ab r s p q)

/-- The all-zero matrix `np.zeros((n, n))`. -/
def zeroM {n : ℕ} : Mat n := fun _ _ => 0

/-- The all-zero tensor `np.zeros((n, n, n, n))`. -/
def zeroT {n : ℕ} : T4 n := fun _ _ _ _ => 0

/-- A single numpy element assignment `M[a, b] = v` (for in-range `a`, `b`;
the source only writes in-range nonnegative indices in the runs the claims
cover). -/
def updateM {n : ℕ} (M : Mat n) (a b : ℕ) (v : ℝ) : Mat n :=
  fun p q => if p.val = a ∧ q.val = b then v else M p q

/-- The occupation-number operator matrix built inside `compute_occ`:
zeros with `occ[site_i, site_i] = 1` (spin-up orbital) and
`occ[site_i+1, site_i+1] = 1` (spin-down orbital). -/
def occOp {n : ℕ} (site_i : ℕ) : Mat n :=
  updateM (updateM zeroM site_i site_i 1) (site_i + 1) (site_i + 1) 1

/-- `compute_occ(site_i, d1, d2, mocoeffs, norbs)`: encode the occupation
operator as a one-body matrix, wrap it in an `ERIs` bundle, contract with
the density matrices through `compute_energy` and take the real part.
The `norbs` shape argument is the type index `n`. -/
def compute_occ {n : ℕ} (site_i : ℕ) (d1 : CMat n × CMat n)
    (d2 : CT4 n × CT4 n × CT4 n) (mocoeffs : Mat n × Mat n) : ℝ :=
  let occ_eris := ERIs.make (occOp site_i) zeroT mocoeffs
  (compute_energy d1 d2 occ_eris).re

/-- The Sz operator matrix built inside `compute_Sz`: zeros with
`Sz[site_i, site_i] = 1/2` and `Sz[site_i+1, site_i+1] = -1/2`. -/
def szOp {n : ℕ} (site_i : ℕ) : Mat n :=
  updateM (updateM zeroM site_i site_i (1 / 2)) (site_i + 1) (site_i + 1)
    (-(1 / 2))

/-- `compute_Sz(site_i, d1, d2, mocoeffs, norbs)`. -/
def compute_Sz {n : ℕ} (site_i : ℕ) (d1 : CMat n × CMat n)
    (d2 : CT4 n × CT4 n × CT4 n) (mocoeffs : Mat n × Mat n) : ℝ :=
  let Sz_eris := ERIs.make (szOp site_i) zeroT mocoeffs
  (compute_energy d1 d2 Sz_eris).re

/-- The bond-current operator matrix built inside `compute_current`: zeros
with `J[dot_i-1, dot_i] = -t/2`, `J[dot_i, dot_i-1] = t/2`,
`J[dot_i+1, dot_i] = t/2`, `J[dot_i, dot_i+1] = -t/2`.  (`dot_i - 1` is
natural subtraction; the claims only exercise `dot_i ≥ 1`, where it agrees
with the Python index arithmetic.) -/
def currentOp {n : ℕ} (dot_i : ℕ) (t : ℝ) : Mat n :=
  updateM (updateM (updateM (updateM zeroM
    (dot_i - 1) dot_i (-(t / 2)))
    dot_i (dot_i - 1) (t / 2))
    (dot_i + 1) dot_i (t / 2))
    dot_i (dot_i + 1) (-(t / 2))

/-- `compute_current(dot_i, t, d1, d2, mocoeffs, norbs)`: encode the bond
current as an antisymmetric one-body matrix, contract, and take the
imaginary part. -/
def compute_current {n : ℕ} (dot_i : ℕ) (t : ℝ) (d1 : CMat n × CMat n)
    (d2 : CT4 n × CT4 n × CT4 n) (mocoeffs : Mat n × Mat n) : ℝ :=
  let J_eris := ERIs.make (currentOp dot_i t) zeroT mocoeffs
  (compute_energy d1 d2 J_eris).im

/-- The eight element assignments executed for one impurity spin-orbital
pair `doti` in the loop of `compute_current_spinblind`. -/
def spinblindSite {n : ℕ} (t : ℝ) (J : Mat n) (doti : ℕ) : Mat n :=
  updateM (updateM (updateM (updateM (updateM (updateM (updateM (updateM J
    (doti - 2) doti (-(t / 2)))
    (doti + 1 - 2) (doti + 1) (-(t / 2)))
    doti (doti - 2) (t / 2))
    (doti + 1) (doti + 1 - 2) (t / 2))
    (doti + 2) doti (t / 2))
    (doti + 1 + 2) (doti + 1) (t / 2))
    doti (doti + 2) (-(t / 2)))
    (doti + 1) (doti + 1 + 2) (-(t / 2))

/-- The Python iteration list `range(dot_i[0], dot_i[-1] + 1, 2)`. -/
def spinblindRange (dot_i : List ℕ) : List ℕ :=
  List.range' (dot_i.headD 0) ((dot_i.getLastD 0 + 1 - dot_i.headD 0 + 1) / 2) 2

/-- The spin-blind current operator matrix built inside
`compute_current_spinblind`: the loop over impurity sites filling eight
hopping elements per site pair. -/
def currentSpinblindOp {n : ℕ} (dot_i : List ℕ) (t : ℝ) : Mat n :=
  (spinblindRange dot_i).foldl (spinblindSite t) zeroM

/-- `compute_current_spinblind(dot_i, t, d1, d2, mocoeffs, norbs)`: the
ASU-formalism (all-spin-up) current, `dot_i` a list of the first and last
impurity spin-orbital indices. -/
def compute_current_spinblind {n : ℕ} (dot_i : List ℕ) (t : ℝ)
    (d1 : CMat n × CMat n) (d2 : CT4 n × CT4 n × CT4 n)
    (mocoeffs : Mat n × Mat n) : ℝ :=
  let J_eris := ERIs.make (currentSpinblindOp dot_i t) zeroT mocoeffs
  (compute_energy d1 d2 J_eris).im

/-! ## Density matrices: the external engine and `CIObject.compute_rdm12` -/

/-- The opaque many-body engine capabilities the module calls into
(`pyscf.fci.direct_uhf`, external to the repository): the Hamiltonian
action built by `make_hop`, the same-vector reduced-density-matrix builder
`make_rdm12s` (returning `((d1a, d1b), (d2aa, d2ab, d2bb))`), and the
transition builder `trans_rdm12s` (returning
`((d1a, d1b), (d2aa, d2ab, d2ba, d2bb))`), all on real arrays. -/
structure Engine (d n : ℕ) where
  hop : Vec d → Vec d
  make_rdm12s : Vec d → (Mat n × Mat n) × (T4 n × T4 n × T4 n)
  trans_rdm12s : Vec d → Vec d → (Mat n × Mat n) × (T4 n × T4 n × T4 n × T4 n)

/-- `CIObject.compute_rdm12` from the source: obtain the same-part density
matrices of `r` and of `i` and the `r`-bra/`i`-ket transition matrices from
the engine, combine them entrywise into complex matrices, and apply the
final global `transpose(1,0,3,2)` to the three two-body matrices. -/
def CIObject.compute_rdm12 {d n : ℕ} (E : Engine d n) (ci : CIObject d) :
    (CMat n × CMat n) × (CT4 n × CT4 n × CT4 n) :=
  let rr := E.make_rdm12s ci.r
  let ii := E.make_rdm12s ci.i
  let ri := E.trans_rdm12s ci.r ci.i
  let rr1 := rr.1
  let rr2 := rr.2
  let ii1 := ii.1
  let ii2 := ii.2
  let ri1 := ri.1
  let ri2 := ri.2
  let d1a := fun p q =>
    (rr1.1 p q : ℂ) + ii1.1 p q + Complex.I * (ri1.1 p q - ri1.1 q p)
  let d1b := fun p q =>
    (rr1.2 p q : ℂ) + ii1.2 p q + Complex.I * (ri1.2 p q - ri1.2 q p)
  let d2aa := fun p q r s =>
    (rr2.1 p q r s : ℂ) + ii2.1 p q r s +
      Complex.I * (ri2.1 p q r s - t1032 ri2.1 p q r s)
  let d2ab := fun p q r s =>
    (rr2.2.1 p q r s : ℂ) + ii2.2.1 p q r s +
      Complex.I * (ri2.2.1 p q r s - t3210 ri2.2.2.1 p q r s)
  let d2bb := fun p q r s =>
    (rr2.2.2 p q r s : ℂ) + ii2.2.2 p q r s +
      Complex.I * (ri2.2.2.2 p q r s - t1032 ri2.2.2.2 p q r s)
  ((d1a, d1b), (t1032 d2aa, t1032 d2ab, t1032 d2bb))

/-- The density-matrix combination rules exactly as the design
documentation words them, applied to raw engine outputs `rr`, `ii`
(same-part matrices of R and I) and `ri` (transition matrices with R as bra
and I as ket): one-body `d1 = RR + II + i·(RI - RIᵀ)` per spin channel;
two-body same-spin channels use the `(1,0,3,2)` transpose of the transition
matrix for the anti-term; the mixed channel uses the `(3,2,1,0)` transpose
of the opposite-ordering (`ba`) transition matrix; and a final global
`(1,0,3,2)` index permutation is applied to all three two-body matrices
before they are returned. -/
def rdm12Spec {n : ℕ}
    (rr ii : (Mat n × Mat n) × (T4 n × T4 n × T4 n))
    (ri : (Mat n × Mat n) × (T4 n × T4 n × T4 n × T4 n)) :
    (CMat n × CMat n) × (CT4 n × CT4 n × CT4 n) :=
  let oneBody := fun (RR II RI : Mat n) => (fun p q =>
    (RR p q : ℂ) + II p q + Complex.I * (RI p q - mT RI p q) : CMat n)
  let sameSpin := fun (RR2 II2 RI2 : T4 n) => (fun p q r s =>
    (RR2 p q r s : ℂ) + II2 p q r s +
      Complex.I * (RI2 p q r s - t1032 RI2 p q r s) : CT4 n)
  let mixedSpin := fun (RR2 II2 RI2ab RI2ba : T4 n) => (fun p q r s =>
    (RR2 p q r s : ℂ) + II2 p q r s +
      Complex.I * (RI2ab p q r s - t3210 RI2ba p q r s) : CT4 n)
  ((oneBody rr.1.1 ii.1.1 ri.1.1, oneBody rr.1.2 ii.1.2 ri.1.2),
   (t1032 (sameSpin rr.2.1 ii.2.1 ri.2.1),
    t1032 (mixedSpin rr.2.2.1 ii.2.2.1 ri.2.2.1 ri.2.2.2.1),
    t1032 (sameSpin rr.2.2.2 ii.2.2.2 ri.2.2.2.2)))

/-! ## Kernels (the driver loop) -/

/-- Python `int(q)` for a nonnegative-or-negative rational: truncation
toward zero. -/
def pyTrunc (q : ℚ) : ℤ := if q < 0 then ⌈q⌉ else ⌊q⌋

/-- The step count `N = int(tf/dt + 1e-6)` computed by both kernels,
as a natural number (the loop `range(N+1)` of the source; the runs the
claims cover have `tf/dt + 1e-6 ≥ 0`). -/
def pyN (tf dt : ℚ) : ℕ := (pyTrunc (tf / dt + 1 / 1000000)).toNat

/-- The dynamically typed `i_dot` argument: an `int` bond-site index (used
by `compute_current`) or a list of impurity spin-orbital indices (used by
`compute_current_spinblind`). -/
abbrev IDot := ℕ ⊕ List ℕ

/-- The current computation of `kernel_plot` (the `if spinblind:` branch).
An argument of the wrong dynamic type for the selected branch raises a
Python `TypeError` (`compute_current` does integer arithmetic on `dot_i`,
`compute_current_spinblind` subscripts it). -/
def stepCurrent {n : ℕ} (spinblind : Bool) (i_dot : IDot) (t_dot : ℝ)
    (d1 : CMat n × CMat n) (d2 : CT4 n × CT4 n × CT4 n)
    (mocoeffs : Mat n × Mat n) : Except PyErr ℝ :=
  if spinblind then
    match i_dot with
    | .inr l => .ok (compute_current_spinblind l t_dot d1 d2 mocoeffs)
    | .inl _ => .error .typeError
  else
    match i_dot with
    | .inl k => .ok (compute_current k t_dot d1 d2 mocoeffs)
    | .inr _ => .error .typeError

/-- The per-step observable block of `kernel_plot` (source lines computing
`Energy`, `Occupancy`, `Sz`, `Current` from the density matrices retrieved
at the start of the step): occupancy and Sz are evaluated at the hard-coded
site index `2`, the current at the bond-site index `i_dot`. -/
def stepObservables {n : ℕ} (eris : ERIsData n) (d1 : CMat n × CMat n)
    (d2 : CT4 n × CT4 n × CT4 n) (i_dot : IDot) (t_dot : ℝ)
    (spinblind : Bool) : Except PyErr (ℝ × ℝ × ℝ × ℝ) :=
  match stepCurrent spinblind i_dot t_dot d1 d2 eris.mo_coeff with
  | .error e => .error e
  | .ok Current =>
      .ok ((compute_energy d1 d2 eris).re,
           compute_occ 2 d1 d2 eris.mo_coeff,
           compute_Sz 2 d1 d2 eris.mo_coeff,
           Current)

/-- The loop body of `kernel_plot`, iterated `count` times starting at step
index `i`: retrieve the density matrices, advance the state, compute the
four observables from the pre-step density matrices, and record
`(i*dt, Energy, Current)` (the only scalars the source stores - the
occupancy store is commented out and `Sz` is never stored). -/
def plotLoop {d n : ℕ} (E : Engine d n) (eris : ERIsData n) (dt : ℚ)
    (RK : ℕ) (i_dot : IDot) (t_dot : ℝ) (spinblind : Bool) :
    (count i : ℕ) → CIObject d → Except PyErr (List (ℚ × ℝ × ℝ))
  | 0, _, _ => .ok []
  | count + 1, i, ci =>
    let dm := CIObject.compute_rdm12 E ci
    match kernelStep E.hop (dt : ℝ) RK ci with
    | .error e => .error e
    | .ok ci' =>
      match stepObservables eris dm.1 dm.2 i_dot t_dot spinblind with
      | .error e => .error e
      | .ok obs =>
        match plotLoop E eris dt RK i_dot t_dot spinblind count (i + 1) ci' with
        | .error e => .error e
        | .ok rest => .ok (((i : ℚ) * dt, obs.1, obs.2.2.2) :: rest)

/-- `kernel_plot(eris, ci, tf, dt, i_dot, t_dot, RK, spinblind, verbose)`:
run `N + 1` measure-then-step iterations and return the triple
`(t_vals, energy_vals, current_vals)` - exactly the three arrays the
source's `return` statement stacks.  The `verbose` argument only controls
printing and is ignored. -/
def kernel_plot {d n : ℕ} (E : Engine d n) (eris : ERIsData n)
    (ci : CIObject d) (tf dt : ℚ) (i_dot : IDot) (t_dot : ℝ) (RK : ℕ)
    (spinblind : Bool) (verbose : ℕ) :
    Except PyErr (List ℚ × List ℝ × List ℝ) :=
  let _ := verbose
  let N := pyN tf dt
  (plotLoop E eris dt RK i_dot t_dot spinblind (N + 1) 0 ci).map
    fun recs => (recs.map (fun rec => rec.1),
                 recs.map (fun rec => rec.2.1),
                 recs.map (fun rec => rec.2.2))

/-- The local array `occ_vals = np.zeros(N+1)` of `kernel_plot`: created,
never written (the assignment `occ_vals[i] = Occupancy` is commented out in
the source) and not part of the returned tuple.  Exposed here so that the
stored occupancy values can be examined. -/
def kernel_plot_occVals (tf dt : ℚ) : List ℝ :=
  List.replicate (pyN tf dt + 1) 0

/-- The loop body of `kernel_std`: record the density matrices of the
current state, then advance. -/
def stdLoop {d n : ℕ} (E : Engine d n) (dt : ℚ) (RK : ℕ) :
    (count : ℕ) → CIObject d →
    Except PyErr (List ((CMat n × CMat n) × (CT4 n × CT4 n × CT4 n)))
  | 0, _ => .ok []
  | count + 1, ci =>
    let dm := CIObject.compute_rdm12 E ci
    match kernelStep E.hop (dt : ℝ) RK ci with
    | .error e => .error e
    | .ok ci' =>
      match stdLoop E dt RK count ci' with
      | .error e => .error e
      | .ok rest => .ok (dm :: rest)

/-- `kernel_std(eris, ci, tf, dt, RK)`: run `N + 1` measure-then-step
iterations and return the stacked density-matrix series
`(d1as, d1bs), (d2aas, d2abs, d2bbs)`.  (`eris` enters only through the
Hamiltonian action `make_hop(eris, ...)`, abstracted into `E.hop`.) -/
def kernel_std {d n : ℕ} (E : Engine d n) (eris : ERIsData n)
    (ci : CIObject d) (tf dt : ℚ) (RK : ℕ) :
    Except PyErr ((List (CMat n) × List (CMat n)) ×
      (List (CT4 n) × List (CT4 n) × List (CT4 n))) :=
  let _ := eris
  let N := pyN tf dt
  (stdLoop E dt RK (N + 1) ci).map
    fun recs => ((recs.map (fun dm => dm.1.1), recs.map (fun dm => dm.1.2)),
                 (recs.map (fun dm => dm.2.1), recs.map (fun dm => dm.2.2.1),
                  recs.map (fun dm => dm.2.2.2)))

/-- The value returned by the dispatching `kernel`: a density-matrix series
(`std` mode) or a scalar series (`plot` mode). -/
inductive KernelOut (n : ℕ) where
  | std : (List (CMat n) × List (CMat n)) ×
      (List (CT4 n) × List (CT4 n) × List (CT4 n)) → KernelOut n
  | plot : List ℚ × List ℝ × List ℝ → KernelOut n

/-- `kernel(mode, eris, ci, tf, dt, RK, i_dot, t_dot, spinblind, verbose)`:
the dispatching wrapper.  `assert(mode in modes)` is modelled by
`invalidModeError`; in `plot` mode, `assert(i_dot != None)` and
`assert(t_dot != None)` are modelled by `missingParameterError`.  A failed
assert aborts the run before any kernel loop executes, so an error result
carries no time-series output. -/
def kernel {d n : ℕ} (mode : String) (E : Engine d n) (eris : ERIsData n)
    (ci : CIObject d) (tf dt : ℚ) (RK : ℕ) (i_dot : Option IDot)
    (t_dot : Option ℝ) (spinblind : Bool) (verbose : ℕ) :
    Except PyErr (KernelOut n) :=
  if mode = "std" ∨ mode = "plot" then
    if mode = "std" then
      (kernel_std E eris ci tf dt RK).map .std
    else
      match i_dot with
      | none => .error .missingParameterError
      | some idot =>
        match t_dot with
        | none => .error .missingParameterError
        | some tdot =>
          (kernel_plot E eris ci tf dt idot tdot RK spinblind verbose).map .plot
  else .error .invalidModeError

/-! ## The emitted time series, described sample by sample -/

/-- The state after `i` completed time steps (the initial state advanced
`i` times by the kernel step). -/
def traj {d : ℕ} (hop : Vec d → Vec d) (dt : ℝ) (RK : ℕ) (ci : CIObject d)
    (i : ℕ) : CIObject d :=
  (stepFn hop dt RK)^[i] ci

/-- The value `stepCurrent` succeeds with on a well-typed
`(spinblind, i_dot)` configuration. -/
def currentVal {n : ℕ} (spinblind : Bool) (i_dot : IDot) (t_dot : ℝ)
    (d1 : CMat n × CMat n) (d2 : CT4 n × CT4 n × CT4 n)
    (mocoeffs : Mat n × Mat n) : ℝ :=
  match spinblind, i_dot with
  | true, .inr l => compute_current_spinblind l t_dot d1 d2 mocoeffs
  | false, .inl k => compute_current k t_dot d1 d2 mocoeffs
  | _, _ => 0

/-- The energy scalar `kernel_plot` records at a given state: the real part
of `compute_energy` on that state's density matrices. -/
def plotEnergyAt {d n : ℕ} (E : Engine d n) (eris : ERIsData n)
    (ci : CIObject d) : ℝ :=
  (compute_energy (CIObject.compute_rdm12 E ci).1
    (CIObject.compute_rdm12 E ci).2 eris).re

/-- The current scalar `kernel_plot` records at a given state. -/
def plotCurrentAt {d n : ℕ} (E : Engine d n) (eris : ERIsData n)
    (spinblind : Bool) (i_dot : IDot) (t_dot : ℝ) (ci : CIObject d) : ℝ :=
  currentVal spinblind i_dot t_dot (CIObject.compute_rdm12 E ci).1
    (CIObject.compute_rdm12 E ci).2 eris.mo_coeff

/-- The density-matrix series the design documentation predicts for
`kernel_std`: `count` samples, the `i`-th computed from the state that has
been advanced exactly `i` times from the initial condition. -/
def kernelStdSpec {d n : ℕ} (E : Engine d n) (dt : ℚ) (RK : ℕ)
    (ci : CIObject d) (count : ℕ) :
    (List (CMat n) × List (CMat n)) ×
      (List (CT4 n) × List (CT4 n) × List (CT4 n)) :=
  let dm := fun i => CIObject.compute_rdm12 E (traj E.hop (dt : ℝ) RK ci i)
  (((List.range count).map fun i => (dm i).1.1,
    (List.range count).map fun i => (dm i).1.2),
   ((List.range count).map fun i => (dm i).2.1,
    (List.range count).map fun i => (dm i).2.2.1,
    (List.range count).map fun i => (dm i).2.2.2))

/-- The scalar series the design documentation predicts for `kernel_plot`:
`count` samples with time values `i·dt`, the `i`-th energy and current
computed from the state that has been advanced exactly `i` times. -/
def kernelPlotSpec {d n : ℕ} (E : Engine d n) (eris : ERIsData n)
    (dt : ℚ) (RK : ℕ) (i_dot : IDot) (t_dot : ℝ) (spinblind : Bool)
    (ci : CIObject d) (count : ℕ) : List ℚ × List ℝ × List ℝ :=
  ((List.range count).map fun (i : ℕ) => ((i : ℚ) * dt : ℚ),
   (List.range count).map fun i =>
     plotEnergyAt E eris (traj E.hop (dt : ℝ) RK ci i),
   (List.range count).map fun i =>
     plotCurrentAt E eris spinblind i_dot t_dot
       (traj E.hop (dt : ℝ) RK ci i))

/-! ## Identity-coefficient transforms and concrete evaluation objects -/

/-- The identity coefficient matrix `np.eye(n)`. -/
def idM {n : ℕ} : Mat n := fun p q => if p = q then 1 else 0

/-- The complex identity matrix (used to state concrete density-matrix
values). -/
def cIdM {n : ℕ} : CMat n := fun p q => if p = q then 1 else 0

/-- The complex zero rank-4 tensor. -/
def cZ4 {n : ℕ} : CT4 n := fun _ _ _ _ => 0

/-- Concrete state for witnesses: a one-dimensional Hilbert space with the
real unit vector, four orbitals, one electron per spin. -/
def ci0 : CIObject 1 := ⟨fun _ => 1, fun _ => 0, 4, (1, 1)⟩

/-- Concrete zero Hamiltonian action. -/
def hop0 : Vec 1 → Vec 1 := fun _ _ => 0

/-- The zero displacement vector. -/
def zv : Vec 1 := fun _ => 0

/-- Concrete many-body engine: zero Hamiltonian action, one-body same-part
density matrices scaling the identity by the vector's first entry
(so the real part of `ci0` contributes the identity and its zero imaginary
part contributes nothing), vanishing two-body and transition parts. -/
def E0 : Engine 1 4 :=
  ⟨hop0,
   fun v => ((fun p q => if p = q then v 0 else 0,
              fun p q => if p = q then v 0 else 0), (zeroT, zeroT, zeroT)),
   fun _ _ => ((zeroM, zeroM), (zeroT, zeroT, zeroT, zeroT))⟩

/-- Concrete Hamiltonian bundle: identity orbital coefficients and zero
one- and two-body tensors. -/
def eris0 : ERIsData 4 := ⟨(idM, idM), (zeroM, zeroM), (zeroT, zeroT, zeroT)⟩


/-! ## Lemmas -/

lemma compute_update_eq_some {d : ℕ} (hop : Vec d → Vec d) (ci : CIObject d)
    (h : ℝ) {RK : ℕ} (hRK : RK = 1 ∨ RK = 4) :
    compute_update hop ci h RK = some (updateRK hop ci h RK) := by
  rcases hRK with h1 | h4
  · subst h1
    rfl
  · subst h4
    rfl

lemma kernelStep_eq_ok {d : ℕ} (hop : Vec d → Vec d) (dt : ℝ) {RK : ℕ}
    (hRK : RK = 1 ∨ RK = 4) (ci : CIObject d) :
    kernelStep hop dt RK ci = .ok (stepFn hop dt RK ci) := by
  rw [kernelStep, compute_update_eq_some hop ci dt hRK]
  rfl

lemma normSq_nonneg {d : ℕ} (r i : Vec d) : 0 ≤ normSq r i := by
  refine Finset.sum_nonneg fun k _ => ?_
  positivity

/-- Renormalizing a pair of nonzero squared norm yields a pair of unit
squared norm. -/
lemma normSq_normalizePair {d : ℕ} (r i : Vec d) (hne : normSq r i ≠ 0) :
    normSq (normalizePair r i).1 (normalizePair r i).2 = 1 := by
  have hsq : cnorm r i ^ 2 = normSq r i := Real.sq_sqrt (normSq_nonneg r i)
  have : normSq (normalizePair r i).1 (normalizePair r i).2
      = normSq r i / cnorm r i ^ 2 := by
    simp only [normSq, normalizePair, div_pow, Finset.sum_div, add_div]
  rw [this, hsq, div_self hne]

lemma except_map_ok {α β : Type} (f : α → β) (a : α) :
    Except.map f (Except.ok a : Except PyErr α) = .ok (f a) := rfl

lemma stdLoop_ok {d n : ℕ} (E : Engine d n) (dt : ℚ) {RK : ℕ}
    (hRK : RK = 1 ∨ RK = 4) :
    ∀ (count : ℕ) (ci : CIObject d),
      stdLoop E dt RK count ci =
        .ok ((List.range count).map fun j =>
          CIObject.compute_rdm12 E (traj E.hop (dt : ℝ) RK ci j)) := by
  intro count
  induction count with
  | zero => intro ci; rfl
  | succ k ih =>
    intro ci
    rw [stdLoop]
    simp only [kernelStep_eq_ok E.hop (dt : ℝ) hRK, ih]
    rw [List.range_succ_eq_map, List.map_cons, List.map_map]
    refine congrArg Except.ok (congrArg₂ List.cons ?_ ?_)
    · simp [traj]
    · refine List.map_congr_left fun j _ => ?_
      simp [Function.comp, traj, Function.iterate_succ_apply]

lemma stepObservables_ok {n : ℕ} (eris : ERIsData n) (d1 : CMat n × CMat n)
    (d2 : CT4 n × CT4 n × CT4 n) (i_dot : IDot) (t_dot : ℝ)
    (spinblind : Bool)
    (hwt : spinblind = true ∧ (∃ l, i_dot = .inr l) ∨
           spinblind = false ∧ (∃ k, i_dot = .inl k)) :
    stepObservables eris d1 d2 i_dot t_dot spinblind =
      .ok ((compute_energy d1 d2 eris).re,
           compute_occ 2 d1 d2 eris.mo_coeff,
           compute_Sz 2 d1 d2 eris.mo_coeff,
           currentVal spinblind i_dot t_dot d1 d2 eris.mo_coeff) := by
  rcases hwt with ⟨hsb, l, hl⟩ | ⟨hsb, k, hk⟩
  · subst hsb; subst hl; rfl
  · subst hsb; subst hk; rfl

lemma plotLoop_ok {d n : ℕ} (E : Engine d n) (eris : ERIsData n) (dt : ℚ)
    {RK : ℕ} (hRK : RK = 1 ∨ RK = 4) (i_dot : IDot) (t_dot : ℝ)
    (spinblind : Bool)
    (hwt : spinblind = true ∧ (∃ l, i_dot = .inr l) ∨
           spinblind = false ∧ (∃ k, i_dot = .inl k)) :
    ∀ (count i : ℕ) (ci : CIObject d),
      plotLoop E eris dt RK i_dot t_dot spinblind count i ci =
        .ok ((List.range count).map fun j =>
          (((i + j : ℕ) : ℚ) * dt,
           plotEnergyAt E eris (traj E.hop (dt : ℝ) RK ci j),
           plotCurrentAt E eris spinblind i_dot t_dot
             (traj E.hop (dt : ℝ) RK ci j))) := by
  intro count
  induction count with
  | zero => intro i ci; rfl
  | succ k ih =>
    intro i ci
    rw [plotLoop]
    simp only [kernelStep_eq_ok E.hop (dt : ℝ) hRK,
      stepObservables_ok _ _ _ _ _ _ hwt, ih]
    rw [List.range_succ_eq_map, List.map_cons, List.map_map]
    refine congrArg Except.ok (congrArg₂ List.cons ?_ ?_)
    · simp [traj, plotEnergyAt, plotCurrentAt]
    · refine List.map_congr_left fun j _ => ?_
      have hidx : i + 1 + j = i + (j + 1) := by omega
      simp only [Function.comp, traj, Function.iterate_succ_apply,
        Nat.succ_eq_add_one, hidx]

/-- `kernel_plot` succeeds and emits exactly the described series whenever
the integration order is supported and `(spinblind, i_dot)` is well
typed. -/
lemma kernel_plot_ok {d n : ℕ} (E : Engine d n) (eris : ERIsData n)
    (ci : CIObject d) (tf dt : ℚ) (i_dot : IDot) (t_dot : ℝ) {RK : ℕ}
    (hRK : RK = 1 ∨ RK = 4) (spinblind : Bool) (verbose : ℕ)
    (hwt : spinblind = true ∧ (∃ l, i_dot = .inr l) ∨
           spinblind = false ∧ (∃ k, i_dot = .inl k)) :
    kernel_plot E eris ci tf dt i_dot t_dot RK spinblind verbose =
      .ok (kernelPlotSpec E eris dt RK i_dot t_dot spinblind ci
        (pyN tf dt + 1)) := by
  rw [kernel_plot, plotLoop_ok E eris dt hRK i_dot t_dot spinblind hwt,
    except_map_ok]
  refine congrArg Except.ok ?_
  simp only [kernelPlotSpec, List.map_map]
  refine congrArg₂ Prod.mk ?_ (congrArg₂ Prod.mk ?_ ?_) <;>
    refine List.map_congr_left fun j _ => ?_ <;> simp [Function.comp]

/-- `kernel_std` succeeds and emits exactly the described series whenever
the integration order is supported. -/
lemma kernel_std_ok {d n : ℕ} (E : Engine d n) (eris : ERIsData n)
    (ci : CIObject d) (tf dt : ℚ) {RK : ℕ} (hRK : RK = 1 ∨ RK = 4) :
    kernel_std E eris ci tf dt RK =
      .ok (kernelStdSpec E dt RK ci (pyN tf dt + 1)) := by
  rw [kernel_std, stdLoop_ok E dt hRK, except_map_ok]
  refine congrArg Except.ok ?_
  simp only [kernelStdSpec, List.map_map]
  rfl

lemma transform1_id {n : ℕ} (f : Fin n → Fin n → ℝ) (p q : Fin n) :
    (∑ u, ∑ v, f u v * idM u p * idM v q) = f p q := by
  rw [Finset.sum_eq_single p]
  · rw [Finset.sum_eq_single q]
    · simp [idM]
    · intro v _ hv
      simp [idM, hv]
    · intro hq
      exact absurd (Finset.mem_univ q) hq
  · intro u _ hu
    simp [idM, hu]
  · intro hp
    exact absurd (Finset.mem_univ p) hp

lemma make_h1e_id {n : ℕ} (h1e : Mat n) (g2e : T4 n) :
    (ERIs.make h1e g2e (idM, idM)).h1e = (h1e, h1e) := by
  unfold ERIs.make
  refine congrArg₂ Prod.mk ?_ ?_ <;>
    · funext p q
      exact transform1_id h1e p q

lemma make_g2e_id {n : ℕ} (h1e : Mat n) (g2e : T4 n) :
    (ERIs.make h1e g2e (idM, idM)).g2e = (g2e, g2e, g2e) := by
  have key : ∀ (g : T4 n) (p r q s : Fin n),
      (∑ x, ∑ y, (∑ u, ∑ v, g u v x y * idM u p * idM v r)
        * idM x q * idM y s) = g p r q s := by
    intro g p r q s
    have h1 : (∑ x, ∑ y, (∑ u, ∑ v, g u v x y * idM u p * idM v r)
        * idM x q * idM y s) = ∑ x, ∑ y, g p r x y * idM x q * idM y s := by
      refine Finset.sum_congr rfl fun x _ => Finset.sum_congr rfl fun y _ => ?_
      rw [transform1_id (fun u v => g u v x y) p r]
    rw [h1, transform1_id (fun x y => g p r x y) q s]
  unfold ERIs.make
  refine congrArg₂ Prod.mk ?_ (congrArg₂ Prod.mk ?_ ?_) <;>
    · funext p r q s
      exact key _ p r q s

/-- Contracting a cast real matrix against the complex identity density
matrix collapses to the trace of the matrix. -/
lemma contract_cIdM {n : ℕ} (M : Mat n) :
    (∑ p, ∑ q, castM M p q * cIdM q p) = ∑ p, (M p p : ℂ) := by
  refine Finset.sum_congr rfl fun p _ => ?_
  rw [Finset.sum_eq_single p]
  · simp [castM, cIdM]
  · intro q _ hq
    simp [castM, cIdM, hq]
  · intro hp
    exact absurd (Finset.mem_univ p) hp

/-- When an operator bundle carries no two-body part, `compute_energy`
reduces to the two one-body contractions. -/
lemma compute_energy_zero_g2e {n : ℕ} (d1 : CMat n × CMat n)
    (d2 : CT4 n × CT4 n × CT4 n) (eris : ERIsData n)
    (hg : eris.g2e = (zeroT, zeroT, zeroT)) :
    compute_energy d1 d2 eris =
      (∑ p, ∑ q, castM eris.h1e.1 p q * d1.1 q p) +
      (∑ p, ∑ q, castM eris.h1e.2 p q * d1.2 q p) := by
  unfold compute_energy energyG2aa energyG2ab energyG2bb
  rw [hg]
  simp [castT, zeroT, t0213, t1023]

lemma rdm0_eval :
    CIObject.compute_rdm12 E0 ci0 = ((cIdM, cIdM), (cZ4, cZ4, cZ4)) := by
  unfold CIObject.compute_rdm12 E0
  refine congrArg₂ Prod.mk (congrArg₂ Prod.mk ?_ ?_)
    (congrArg₂ Prod.mk ?_ (congrArg₂ Prod.mk ?_ ?_))
  · funext p q
    by_cases hpq : p = q
    · simp [ci0, cIdM, zeroM, hpq]
    · simp [ci0, cIdM, zeroM, hpq]
  · funext p q
    by_cases hpq : p = q
    · simp [ci0, cIdM, zeroM, hpq]
    · simp [ci0, cIdM, zeroM, hpq]
  · funext p q r s
    simp [t1032, t3210, zeroT, cZ4]
  · funext p q r s
    simp [t1032, t3210, zeroT, cZ4]
  · funext p q r s
    simp [t1032, t3210, zeroT, cZ4]

lemma energy0_eval {d2 : CT4 4 × CT4 4 × CT4 4} :
    compute_energy (cIdM, cIdM) d2 eris0 = 0 := by
  rw [compute_energy_zero_g2e _ _ _ rfl]
  simp [eris0, castM, zeroM]

lemma occ0_eval {d2 : CT4 4 × CT4 4 × CT4 4} :
    compute_occ 2 (cIdM, cIdM) d2 (idM, idM) = 4 := by
  have h : compute_occ 2 (cIdM, cIdM) d2 (idM, idM)
      = (compute_energy (cIdM, cIdM) d2
          (ERIs.make (occOp 2) zeroT (idM, idM))).re := rfl
  have htr : (∑ p : Fin 4, ((occOp 2 : Mat 4) p p : ℂ)) = 2 := by
    rw [Fin.sum_univ_four]
    norm_num [occOp, updateM, zeroM,
      show ((0 : Fin 4) : ℕ) = 0 from rfl, show ((1 : Fin 4) : ℕ) = 1 from rfl,
      show ((2 : Fin 4) : ℕ) = 2 from rfl, show ((3 : Fin 4) : ℕ) = 3 from rfl]
  have h1 : castM (ERIs.make (occOp 2) zeroT (idM, idM) : ERIsData 4).h1e.1
      = castM (occOp 2) := by rw [make_h1e_id]
  have h2 : castM (ERIs.make (occOp 2) zeroT (idM, idM) : ERIsData 4).h1e.2
      = castM (occOp 2) := by rw [make_h1e_id]
  rw [h, compute_energy_zero_g2e _ _ _ (make_g2e_id _ _), h1, h2,
    contract_cIdM, htr]
  norm_num [Complex.add_re]

lemma currentOp_zero_t : (currentOp 1 0 : Mat 4) = zeroM := by
  funext p q
  simp only [currentOp, updateM, zeroM]
  norm_num

lemma current0_eval {d2 : CT4 4 × CT4 4 × CT4 4} :
    compute_current 1 0 (cIdM, cIdM) d2 (idM, idM) = 0 := by
  have h : compute_current 1 0 (cIdM, cIdM) d2 (idM, idM)
      = (compute_energy (cIdM, cIdM) d2
          (ERIs.make (currentOp 1 0) zeroT (idM, idM))).im := rfl
  have h1 : castM (ERIs.make (currentOp 1 0) zeroT (idM, idM) : ERIsData 4).h1e.1
      = castM zeroM := by rw [make_h1e_id, currentOp_zero_t]
  have h2 : castM (ERIs.make (currentOp 1 0) zeroT (idM, idM) : ERIsData 4).h1e.2
      = castM zeroM := by rw [make_h1e_id, currentOp_zero_t]
  rw [h, compute_energy_zero_g2e _ _ _ (make_g2e_id _ _), h1, h2]
  simp [castM, zeroM]

lemma plotEnergyAt0 : plotEnergyAt E0 eris0 ci0 = 0 := by
  unfold plotEnergyAt
  simp only [rdm0_eval]
  rw [energy0_eval]
  simp

lemma plotCurrentAt0 :
    plotCurrentAt E0 eris0 false (Sum.inl 1) 0 ci0 = 0 := by
  unfold plotCurrentAt
  simp only [rdm0_eval]
  have h : currentVal false (Sum.inl 1) (0 : ℝ) (cIdM, cIdM) (cZ4, cZ4, cZ4)
      eris0.mo_coeff
      = compute_current 1 0 (cIdM, cIdM) (cZ4, cZ4, cZ4) (idM, idM) := rfl
  rw [h, current0_eval]

/-! ## The claims -/

/-- C1 (counterexample): in a concrete plot-mode run the per-step occupancy
evaluates to `4`, yet the returned series is exactly
`(t_vals, energy_vals, current_vals) = ([0], [0], [0])` and the local
occupancy array stays at `[0]`: the occupancy (and spin) scalars are
neither stored nor returned, so the run does not return a series containing
all four observables. -/
theorem c1_counterexample :
    kernel_plot E0 eris0 ci0 0 1 (Sum.inl 1) 0 1 false 0 =
      Except.ok ([0], [0], [0])
  ∧ compute_occ 2 (CIObject.compute_rdm12 E0 ci0).1
      (CIObject.compute_rdm12 E0 ci0).2 eris0.mo_coeff = 4
  ∧ kernel_plot_occVals 0 1 = [0]
  ∧ (4 : ℝ) ≠ 0 := by
  have hN : pyN 0 1 = 0 := by
    have hq : (0 : ℚ) / 1 + 1 / 1000000 = 1 / 1000000 := by norm_num
    rw [pyN, pyTrunc, hq, if_neg (by norm_num)]
    norm_num
  refine ⟨?_, ?_, ?_, by norm_num⟩
  · rw [kernel_plot_ok E0 eris0 ci0 0 1 (Sum.inl 1) 0 (Or.inl rfl) false 0
      (Or.inr ⟨rfl, 1, rfl⟩), hN]
    refine congrArg Except.ok ?_
    have hr1 : List.range 1 = [0] := rfl
    simp [kernelPlotSpec, hr1, traj, plotEnergyAt0, plotCurrentAt0]
  · simp only [rdm0_eval]
    exact occ0_eval
  · simp [kernel_plot_occVals, hN]

/-- C1 (amended): in plot mode the kernel computes all four observables -
energy, occupancy, Sz and current - from the pre-step density matrices at
every step, but it stores and returns only the time, energy and current
series; the local occupancy array stays identically zero and the Sz value
is never stored. -/
theorem c1_amended {d n : ℕ} (E : Engine d n) (eris : ERIsData n)
    (ci : CIObject d) (tf dt : ℚ) (k : ℕ) (t_dot : ℝ) {RK : ℕ} (v : ℕ)
    (hRK : RK = 1 ∨ RK = 4) :
    (∀ (d1 : CMat n × CMat n) (d2 : CT4 n × CT4 n × CT4 n),
      stepObservables eris d1 d2 (Sum.inl k) t_dot false =
        .ok ((compute_energy d1 d2 eris).re,
             compute_occ 2 d1 d2 eris.mo_coeff,
             compute_Sz 2 d1 d2 eris.mo_coeff,
             compute_current k t_dot d1 d2 eris.mo_coeff))
  ∧ kernel_plot E eris ci tf dt (Sum.inl k) t_dot RK false v =
      .ok (kernelPlotSpec E eris dt RK (Sum.inl k) t_dot false ci
        (pyN tf dt + 1))
  ∧ kernel_plot_occVals tf dt = List.replicate (pyN tf dt + 1) 0 := by
  refine ⟨fun d1 d2 => rfl, ?_, rfl⟩
  exact kernel_plot_ok E eris ci tf dt (Sum.inl k) t_dot hRK false v
    (Or.inr ⟨rfl, k, rfl⟩)

/-- C1 (witness for the amended theorem): a supported order in a concrete
run. -/
theorem c1_witness :
    (1 = 1 ∨ 1 = 4) ∧
    kernel_plot E0 eris0 ci0 0 1 (Sum.inl 1) 0 1 false 0 =
      .ok (kernelPlotSpec E0 eris0 1 1 (Sum.inl 1) 0 false ci0
        (pyN 0 1 + 1)) :=
  ⟨Or.inl rfl,
   (c1_amended E0 eris0 ci0 0 1 1 0 0 (Or.inl rfl)).2.1⟩

/-- C2 (counterexample): requesting integration order 2 does not fail with
any unsupported-order error: `compute_update` returns `None` (a normal
return), and the kernel step then fails while unpacking it - with a
`TypeError`, not an `UnsupportedOrderError`. -/
theorem c2_counterexample :
    compute_update hop0 ci0 1 2 = none
  ∧ kernelStep hop0 1 2 ci0 = .error .typeError
  ∧ kernelStep hop0 1 2 ci0 ≠ .error .unsupportedOrderError := by
  refine ⟨rfl, rfl, ?_⟩
  intro h
  have h2 : PyErr.typeError = PyErr.unsupportedOrderError := by
    have h1 : (Except.error PyErr.typeError :
        Except PyErr (CIObject 1)) = .error .unsupportedOrderError := h
    exact Except.error.inj h1
  exact absurd h2 (by decide)

/-- C2 (amended): for every integration order other than 1 and 4,
`compute_update` returns `None` (no displacement and no exception); the
kernel step that unpacks the result then fails with a `TypeError`, and in
particular never with an `UnsupportedOrderError`. -/
theorem c2_amended {d : ℕ} (hop : Vec d → Vec d) (ci : CIObject d) (h : ℝ)
    (RK : ℕ) (h1 : RK ≠ 1) (h4 : RK ≠ 4) :
    compute_update hop ci h RK = none
  ∧ kernelStep hop h RK ci = .error .typeError
  ∧ kernelStep hop h RK ci ≠ .error .unsupportedOrderError := by
  have hnone : compute_update hop ci h RK = none := by
    unfold compute_update
    simp [h1, h4]
  refine ⟨hnone, ?_, ?_⟩
  · rw [kernelStep, hnone]
  · rw [kernelStep, hnone]
    intro hcontra
    have h2 : PyErr.typeError = PyErr.unsupportedOrderError :=
      Except.error.inj hcontra
    exact absurd h2 (by decide)

/-- C2 (witness): order 2 satisfies the hypotheses and yields `None`. -/
theorem c2_witness :
    ((2 : ℕ) ≠ 1 ∧ (2 : ℕ) ≠ 4) ∧ compute_update hop0 ci0 1 2 = none :=
  ⟨⟨by decide, by decide⟩,
   (c2_amended hop0 ci0 1 2 (by decide) (by decide)).1⟩

/-- C3: for order 4 the propagator's displacement is exactly the four-stage
scheme in which every intermediate `(R, I)` pair is renormalized before the
next Hamiltonian action and the result is the weighted average
`(k1 + 2k2 + 2k3 + k4)/6` applied separately to the real and imaginary
parts; and the renormalization indeed produces unit squared 2-norm whenever
the pair is nonzero. -/
theorem c3_rk4_structure {d : ℕ} (hop : Vec d → Vec d) (ci : CIObject d)
    (h : ℝ) :
    compute_update hop ci h 4 = some (rk4_update hop ci.r ci.i h)
  ∧ ∀ r i : Vec d, normSq r i ≠ 0 →
      normSq (normalizePair r i).1 (normalizePair r i).2 = 1 :=
  ⟨rfl, fun r i hne => normSq_normalizePair r i hne⟩

/-- C3 (witness): the unit-norm conclusion at a concrete nonzero pair. -/
theorem c3_witness :
    normSq ci0.r ci0.i ≠ 0 ∧
    normSq (normalizePair ci0.r ci0.i).1 (normalizePair ci0.r ci0.i).2 = 1 := by
  have hne : normSq ci0.r ci0.i ≠ 0 := by
    norm_num [normSq, ci0, Fin.sum_univ_one]
  exact ⟨hne, (c3_rk4_structure hop0 ci0 1).2 ci0.r ci0.i hne⟩

/-- C4: at the end of a kernel time step the updated state is renormalized,
so its complex 2-norm equals 1 whenever the pre-normalization displaced
vector is nonzero (both kernels perform this exact block, `kernelStep`). -/
theorem c4_step_unit_norm {d : ℕ} (ci : CIObject d) (dr di : Vec d)
    (dt : ℝ)
    (hne : normSq (fun k => ci.r k + dt * dr k)
      (fun k => ci.i k + dt * di k) ≠ 0) :
    cnorm (applyStep ci dr di dt).r (applyStep ci dr di dt).i = 1 := by
  have h1 : normSq (applyStep ci dr di dt).r (applyStep ci dr di dt).i = 1 := by
    have h2 := normSq_normalizePair (fun k => ci.r k + dt * dr k)
      (fun k => ci.i k + dt * di k) hne
    simpa [applyStep, normalizePair] using h2
  rw [cnorm, h1, Real.sqrt_one]

/-- C4 (witness): a concrete step with nonzero displaced vector ends at
unit norm. -/
theorem c4_witness :
    normSq (fun k => ci0.r k + 1 * zv k) (fun k => ci0.i k + 1 * zv k) ≠ 0 ∧
    cnorm (applyStep ci0 zv zv 1).r (applyStep ci0 zv zv 1).i = 1 := by
  have hne : normSq (fun k => ci0.r k + 1 * zv k)
      (fun k => ci0.i k + 1 * zv k) ≠ 0 := by
    norm_num [normSq, ci0, zv, Fin.sum_univ_one]
  exact ⟨hne, c4_step_unit_norm ci0 zv zv 1 hne⟩

/-- C5: `compute_rdm12` combines the engine's raw density matrices exactly
by the documented closed-form rules: `d1 = RR + II + i·(RI - RIᵀ)` per spin
channel, the `(1,0,3,2)` transpose of the transition tensor in the
same-spin anti-terms, the `(3,2,1,0)` transpose of the opposite-ordering
transition tensor in the mixed channel, and a final global `(1,0,3,2)`
permutation of all three two-body matrices. -/
theorem c5_rdm12_rules {d n : ℕ} (E : Engine d n) (ci : CIObject d) :
    CIObject.compute_rdm12 E ci =
      rdm12Spec (E.make_rdm12s ci.r) (E.make_rdm12s ci.i)
        (E.trans_rdm12s ci.r ci.i) := rfl

/-- C6: both kernels take `N = floor(tf/dt + 1e-6)` and emit exactly `N+1`
samples, the plot kernel with time values `i·dt`, and the sample at index
`i` is computed from the state advanced exactly `i` times from the initial
condition (measure before stepping). -/
theorem c6_sampling {d n : ℕ} (E : Engine d n) (eris : ERIsData n)
    (ci : CIObject d) (tf dt : ℚ) {RK : ℕ} (k : ℕ) (l : List ℕ)
    (t_dot : ℝ) (v : ℕ) (hRK : RK = 1 ∨ RK = 4) (hdt : 0 < dt)
    (htf : 0 ≤ tf) :
    ((pyN tf dt : ℤ) = ⌊tf / dt + 1 / 1000000⌋)
  ∧ kernel_std E eris ci tf dt RK =
      .ok (kernelStdSpec E dt RK ci (pyN tf dt + 1))
  ∧ kernel_plot E eris ci tf dt (Sum.inl k) t_dot RK false v =
      .ok (kernelPlotSpec E eris dt RK (Sum.inl k) t_dot false ci
        (pyN tf dt + 1))
  ∧ kernel_plot E eris ci tf dt (Sum.inr l) t_dot RK true v =
      .ok (kernelPlotSpec E eris dt RK (Sum.inr l) t_dot true ci
        (pyN tf dt + 1))
  ∧ (kernelPlotSpec E eris dt RK (Sum.inl k) t_dot false ci
      (pyN tf dt + 1)).1.length = pyN tf dt + 1 := by
  have hq : (0 : ℚ) ≤ tf / dt + 1 / 1000000 := by
    have h0 : (0 : ℚ) ≤ tf / dt := div_nonneg htf hdt.le
    linarith
  refine ⟨?_, kernel_std_ok E eris ci tf dt hRK,
    kernel_plot_ok E eris ci tf dt (Sum.inl k) t_dot hRK false v
      (Or.inr ⟨rfl, k, rfl⟩),
    kernel_plot_ok E eris ci tf dt (Sum.inr l) t_dot hRK true v
      (Or.inl ⟨rfl, l, rfl⟩), ?_⟩
  · rw [pyN, pyTrunc, if_neg (not_lt.mpr hq)]
    exact Int.toNat_of_nonneg (Int.floor_nonneg.mpr hq)
  · simp [kernelPlotSpec]

/-- C6 (witness): a concrete run with `tf = 1`, `dt = 1`, order 1. -/
theorem c6_witness :
    ((1 = 1 ∨ 1 = 4) ∧ (0 : ℚ) < 1 ∧ (0 : ℚ) ≤ 1) ∧
    kernel_std E0 eris0 ci0 1 1 1 =
      .ok (kernelStdSpec E0 1 1 ci0 (pyN 1 1 + 1)) :=
  ⟨⟨Or.inl rfl, by norm_num, by norm_num⟩,
   (c6_sampling E0 eris0 ci0 1 1 1 [0] 0 0 (Or.inl rfl) (by norm_num)
     (by norm_num)).2.1⟩

/-- C7: in the expectation-value contraction the two same-spin two-body
operator tensors are antisymmetrized so that `G[p,q,r,s] = -G[q,p,r,s]`
holds exactly, while the mixed-spin tensor is left un-antisymmetrized (it
is just the notation-transposed cast of the stored tensor). -/
theorem c7_antisymmetry {n : ℕ} (eris : ERIsData n) (p q r s : Fin n) :
    energyG2aa eris p q r s = -(energyG2aa eris q p r s)
  ∧ energyG2bb eris p q r s = -(energyG2bb eris q p r s)
  ∧ energyG2ab eris p q r s = ((eris.g2e.2.1 p r q s : ℝ) : ℂ) := by
  refine ⟨?_, ?_, rfl⟩
  · simp only [energyG2aa, t0213, t1023, castT]
    ring
  · simp only [energyG2bb, t0213, t1023, castT]
    ring

/-- C8: applying the `ERIs` transform with identity coefficient matrices in
both spin channels returns the site-basis one-body matrix unchanged in both
spin channels and the two-body tensor unchanged in all three spin
channels. -/
theorem c8_identity_transform {n : ℕ} (H1 : Mat n) (H2 : T4 n) :
    (ERIs.make H1 H2 (idM, idM)).h1e = (H1, H1)
  ∧ (ERIs.make H1 H2 (idM, idM)).g2e = (H2, H2, H2) :=
  ⟨make_h1e_id H1 H2, make_g2e_id H1 H2⟩

/-- C9: invoking the driver in plot mode without the bond-site index (or
without the hopping amplitude) fails with `MissingParameterError` and
produces no time-series output. -/
theorem c9_missing_parameter {d n : ℕ} (E : Engine d n) (eris : ERIsData n)
    (ci : CIObject d) (tf dt : ℚ) (RK : ℕ) (i_dot : IDot)
    (t_dot : Option ℝ) (sb : Bool) (v : ℕ) :
    kernel "plot" E eris ci tf dt RK none t_dot sb v =
      .error .missingParameterError
  ∧ kernel "plot" E eris ci tf dt RK (some i_dot) none sb v =
      .error .missingParameterError
  ∧ (∀ out, kernel "plot" E eris ci tf dt RK none t_dot sb v ≠ .ok out) := by
  refine ⟨rfl, rfl, fun out h => ?_⟩
  rw [show kernel "plot" E eris ci tf dt RK none t_dot sb v =
    .error .missingParameterError from rfl] at h
  exact absurd h (by simp)

/-- C10: in the plot kernel's observable block, occupancy and Sz are
evaluated at the fixed orbital indices 2 (spin-up) and 3 (spin-down),
independently of the bond-site index `i_dot`; `i_dot` enters only the
current observable. -/
theorem c10_fixed_site {n : ℕ} (eris : ERIsData n) (d1 : CMat n × CMat n)
    (d2 : CT4 n × CT4 n × CT4 n) (t_dot : ℝ) (k kp : ℕ) (l : List ℕ) :
    stepObservables eris d1 d2 (Sum.inl k) t_dot false =
      .ok ((compute_energy d1 d2 eris).re,
           compute_occ 2 d1 d2 eris.mo_coeff,
           compute_Sz 2 d1 d2 eris.mo_coeff,
           compute_current k t_dot d1 d2 eris.mo_coeff)
  ∧ stepObservables eris d1 d2 (Sum.inr l) t_dot true =
      .ok ((compute_energy d1 d2 eris).re,
           compute_occ 2 d1 d2 eris.mo_coeff,
           compute_Sz 2 d1 d2 eris.mo_coeff,
           compute_current_spinblind l t_dot d1 d2 eris.mo_coeff)
  ∧ (stepObservables eris d1 d2 (Sum.inl k) t_dot false).map
      (fun ob => (ob.1, ob.2.1, ob.2.2.1)) =
    (stepObservables eris d1 d2 (Sum.inl kp) t_dot false).map
      (fun ob => (ob.1, ob.2.1, ob.2.2.1))
  ∧ (∀ p q : Fin n, occOp 2 p q =
      if p = q ∧ (p.val = 2 ∨ p.val = 3) then 1 else 0)
  ∧ (∀ p q : Fin n, szOp 2 p q =
      if p = q ∧ p.val = 2 then 1 / 2
      else if p = q ∧ p.val = 3 then -(1 / 2) else 0) := by
  refine ⟨rfl, rfl, ?_, ?_, ?_⟩
  · have hk : ∀ m : ℕ,
        (stepObservables eris d1 d2 (Sum.inl m) t_dot false).map
          (fun ob => (ob.1, ob.2.1, ob.2.2.1)) =
        (.ok ((compute_energy d1 d2 eris).re,
              compute_occ 2 d1 d2 eris.mo_coeff,
              compute_Sz 2 d1 d2 eris.mo_coeff) :
          Except PyErr (ℝ × ℝ × ℝ)) := fun m => rfl
    rw [hk k, hk kp]
  · intro p q
    simp only [occOp, updateM, zeroM, Fin.ext_iff]
    split_ifs <;> first | rfl | omega
  · intro p q
    simp only [szOp, updateM, zeroM, Fin.ext_iff]
    split_ifs <;> first | rfl | omega

end TdFci
